import Mathlib

/-!
Verification of the SoloSec report aggregator (`bin/aggregator.py`).

The Python module is shallowly embedded: JSON documents become the inductive
type `Json`, Python dict/string primitives become explicit functions with the
same semantics on JSON-derived data, and every function of the source file
that the properties mention (`_normalize_severity`, `_category_for_tool`,
`_compute_human_summary`, `print_human_summary`, `load_json`, the four
`parse_*` functions, `_severity_key`, `main`) is translated to a Lean
definition of the same name.  Python `str.upper`/`str.lower` are modelled by
their ASCII case mapping (which is what Lean's `Char.toUpper`/`Char.toLower`
implement) and `str.strip` by dropping the ASCII whitespace characters from
both ends; the severity tokens the program manipulates are ASCII.
-/

namespace SoloSec

/-- A JSON value as produced by Python's `json.load`: `None`, booleans,
numbers (the reports use integers), strings, arrays and objects.  Object
fields are kept in insertion order, exactly like a Python `dict`. -/
inductive Json where
  | null
  | bool (b : Bool)
  | num (n : Int)
  | str (s : String)
  | arr (items : List Json)
  | obj (fields : List (String × Json))

/-- Python truthiness of a JSON-derived value: `None`, `False`, `0`, `""`,
`[]` and the empty dict are falsy, everything else is truthy. -/
def pyTruthy : Json → Bool
  | .null => false
  | .bool b => b
  | .num n => n != 0
  | .str s => !s.isEmpty
  | .arr items => !items.isEmpty
  | .obj fields => !fields.isEmpty

/-- Python's short-circuiting `x or y` on JSON-derived values. -/
def pyOr (x y : Json) : Json := if pyTruthy x then x else y

/-- Python `d.get(k, default)` on a JSON object.  On a non-object the
model returns the default; in the source most call sites guard with
`isinstance(..., dict)` first, and the remaining ones (semgrep's
`extra`/`start` when truthy but not a dict) would raise `AttributeError`
— a crash path no property below exercises. -/
def jGetD (j : Json) (k : String) (default : Json) : Json :=
  match j with
  | .obj fields =>
    match fields.find? (fun p => p.1 == k) with
    | some p => p.2
    | none => default
  | _ => default

/-- Python `d.get(k)` (default `None`). -/
def jGet (j : Json) (k : String) : Json := jGetD j k .null

/-- Python `isinstance(x, dict)`. -/
def isDict : Json → Bool
  | .obj _ => true
  | _ => false

/-- Comma-separated join, as in Python's repr of containers. -/
def commaSep : List String → String
  | [] => ""
  | [x] => x
  | x :: xs => x ++ ", " ++ commaSep xs

/-- Python `"k" in d` for a JSON object. -/
def jHasKey (j : Json) (k : String) : Bool :=
  match j with
  | .obj fields => (fields.find? (fun p => p.1 == k)).isSome
  | _ => false

mutual
/-- Python `repr` of a JSON-derived value (string escaping inside `repr` of
strings is not reproduced; no property depends on it). -/
def pyRepr : Json → String
  | .null => "None"
  | .bool true => "True"
  | .bool false => "False"
  | .num n => toString n
  | .str s => "\x27" ++ s ++ "\x27"
  | .arr items => "[" ++ commaSep (pyReprList items) ++ "]"
  | .obj fields => "\x7b" ++ commaSep (pyReprFields fields) ++ "\x7d"

/-- Helper of `pyRepr` for array items. -/
def pyReprList : List Json → List String
  | [] => []
  | x :: xs => pyRepr x :: pyReprList xs

/-- Helper of `pyRepr` for object fields. -/
def pyReprFields : List (String × Json) → List String
  | [] => []
  | (k, v) :: xs => ("\x27" ++ k ++ "\x27: " ++ pyRepr v) :: pyReprFields xs
end

/-- Python `str` of a JSON-derived value: identity on strings, `repr`
otherwise. -/
def pyStr : Json → String
  | .str s => s
  | j => pyRepr j

/-- The whitespace characters Python's `str.strip()` removes (ASCII part:
space, tab, LF, CR, VT, FF). -/
def pyWS (c : Char) : Bool :=
  (c.toNat == 32) || (c.toNat == 9) || (c.toNat == 10) ||
  (c.toNat == 13) || (c.toNat == 11) || (c.toNat == 12)

/-- Python `str.strip()` on the character list: drop whitespace from both
ends. -/
def stripList (l : List Char) : List Char :=
  ((l.dropWhile pyWS).reverse.dropWhile pyWS).reverse

/-- Python `str.strip()`. -/
def pyStrip (s : String) : String := ⟨stripList s.data⟩

/-- Python `str.upper()` (ASCII case mapping, `Char.toUpper`). -/
def pyUpper (s : String) : String := ⟨s.data.map Char.toUpper⟩

/-- Python `str.lower()` (ASCII case mapping, `Char.toLower`). -/
def pyLower (s : String) : String := ⟨s.data.map Char.toLower⟩

/-- The token `_normalize_severity` branches on:
`str(sev).strip().upper()`. -/
def canonToken (s : String) : String := pyUpper (pyStrip s)

/-- The branch cascade of `_normalize_severity` after the token is
computed: the alias table, the empty-string case, and the final
passthrough of anything else. -/
def normAlias (s : String) : String :=
  if s = "CRIT" then "CRITICAL"
  else if s = "ERROR" then "HIGH"
  else if s = "WARN" ∨ s = "WARNING" then "MEDIUM"
  else if s = "INFORMATION" ∨ s = "INFORMATIONAL" then "INFO"
  else if s = "" then "UNKNOWN"
  else s

/-- Source `_normalize_severity`, after the initial `str(sev)` coercion:
strip, uppercase, then the alias branches, with everything else passed
through unchanged. -/
def _normalize_severity (sevStr : String) : String :=
  normAlias (canonToken sevStr)

/-- An arbitrary Python value passed to `_normalize_severity`: either a
JSON-derived value (on which `str` always succeeds) or an object whose
`str` raises `TypeError`/`AttributeError` (the `except` branch of the
source). -/
inductive PyVal where
  | json (j : Json)
  | exotic

/-- Source `_normalize_severity` on an arbitrary Python value: `str(sev)`
first, returning UNKNOWN when the coercion raises. -/
def normalize_severity_any : PyVal → String
  | .exotic => "UNKNOWN"
  | .json j => _normalize_severity (pyStr j)

/-- Severity normalization of the severity field of a finding, as `main`
and `_severity_key` and `_compute_human_summary` apply it: the field value
is a JSON-derived value, stringified then normalized. -/
def normalizeSevJson (j : Json) : String := _normalize_severity (pyStr j)

/-- A finding is the Python dict the parsers build: string keys mapped to
JSON-derived values, in insertion order. -/
abbrev Finding := List (String × Json)

/-- Python `f.get(k, default)` on a finding dict. -/
def dictGetD (f : Finding) (k : String) (default : Json) : Json :=
  match f.find? (fun p => p.1 == k) with
  | some p => p.2
  | none => default

/-- Python `f[k] = v` on a finding dict: replace in place if the key is
present (keeping its position), append otherwise. -/
def dictSet : Finding → String → Json → Finding
  | [], k, v => [(k, v)]
  | (k0, v0) :: rest, k, v =>
    if k0 = k then (k, v) :: rest else (k0, v0) :: dictSet rest k v

/-- The elements Python's `for x in v` yields on a JSON-derived value:
arrays yield their items, strings their one-character substrings, dicts
their keys.  Iterating `None`, a boolean or a number raises `TypeError`
in Python; the model yields nothing there (no property below exercises
that corner). -/
def jIter : Json → List Json
  | .arr items => items
  | .str s => s.data.map (fun c => .str ⟨[c]⟩)
  | .obj fields => fields.map (fun p => .str p.1)
  | _ => []

/-- Source `_category_for_tool`. -/
def _category_for_tool (tool : String) : String :=
  let t := pyLower (pyStrip (if tool.isEmpty then "" else tool))
  if t = "gitleaks" then "Secrets"
  else if t = "semgrep" then "Code"
  else if t = "trivy" then "Deps"
  else if t = "zap" then "ZAP"
  else if tool.isEmpty then "Other" else tool

/-- The six canonical severities, in the order the source lists them in
`_compute_human_summary` and `_severity_key`. -/
def severities : List String := ["CRITICAL", "HIGH", "MEDIUM", "LOW", "INFO", "UNKNOWN"]

/-- Result of `_compute_human_summary`: the per-severity counts, the
per-severity per-category breakdown and the total.  The two Python dicts
keyed by the six canonical severities (resp. categories) are modelled as
functions that are zero outside the keys ever incremented. -/
structure HumanSummary where
  counts : String → Nat
  breakdown : String → String → Nat
  total : Nat

/-- The bucket `_compute_human_summary` increments for a finding: the
normalized severity, collapsed to UNKNOWN when it is not one of the six
keys of the counts table (`if sev not in counts`). -/
def bucketOf (f : Finding) : String :=
  let sev0 := normalizeSevJson (dictGetD f "severity" (.str "UNKNOWN"))
  if sev0 ∈ severities then sev0 else "UNKNOWN"

/-- The breakdown category `_compute_human_summary` uses for a finding:
`_category_for_tool(str(f.get("tool", "Other")))`. -/
def categoryOf (f : Finding) : String :=
  _category_for_tool (pyStr (dictGetD f "tool" (.str "Other")))

/-- Per-finding update of `_compute_human_summary`: bump the matching
count and breakdown cell. -/
def summaryStep (acc : (String → Nat) × (String → String → Nat)) (f : Finding) :
    (String → Nat) × (String → String → Nat) :=
  (fun s => if s = bucketOf f then acc.1 s + 1 else acc.1 s,
   fun s c => if s = bucketOf f ∧ c = categoryOf f then acc.2 s c + 1 else acc.2 s c)

/-- Source `_compute_human_summary`. -/
def _compute_human_summary (findings : List Finding) : HumanSummary :=
  let res := findings.foldl summaryStep (fun _ => 0, fun _ _ => 0)
  { counts := res.1, breakdown := res.2, total := findings.length }

/-- Source `print_human_summary`, reduced to its computational content: the
returned verdict (`True` = scan failed).  The terminal rendering is I/O and
prints the same counts in both the rich and the plain branch. -/
def print_human_summary (findings : List Finding) (fail_on_critical : Bool := true) : Bool :=
  let summary := _compute_human_summary findings
  let critical := summary.counts "CRITICAL"
  if fail_on_critical then critical != 0 else false

/-- State of one tool's report file on disk, restricted to the states on
which source `load_json` returns: absent; present but failing with one of
the exceptions its `except` clause actually catches
(`json.JSONDecodeError`, `OSError`, `IOError` — invalid JSON in valid
UTF-8, or an I/O error); or readable with the given parsed document.  A
present file whose bytes are not valid UTF-8 is NOT representable here:
on it `json.load` raises `UnicodeDecodeError`, which that tuple does not
catch, so `load_json` does not return — that state is
`RawFileState.undecodable` below and is fatal. -/
inductive FileState where
  | absent
  | unreadable
  | ok (doc : Json)

/-- Source `load_json` on the non-crashing states: the default when the
file is absent; the default (after printing a warning) when reading or
parsing fails with a caught exception; the parsed document otherwise.
The full function, including the uncaught `UnicodeDecodeError` path, is
`load_json_raw` below. -/
def load_json (report : FileState) (default : Json) : Json :=
  match report with
  | .absent => default
  | .unreadable => default
  | .ok doc => doc

/-- Python `os.path.exists` for a tool's report file. -/
def fileExists : FileState → Bool
  | .absent => false
  | .unreadable => true
  | .ok _ => true

/-- Body of source `parse_trivy` after `load_json`. -/
def parse_trivy_doc (data : Json) : List Finding :=
  if isDict data && jHasKey data "Results" then
    (jIter (pyOr (jGetD data "Results" (.arr [])) (.arr []))).flatMap (fun res =>
      if isDict res then
        let target := jGetD res "Target" (.str "Unknown")
        (jIter (pyOr (jGetD res "Vulnerabilities" (.arr [])) (.arr []))).filterMap (fun vuln =>
          if isDict vuln then
            let pkg := pyOr (jGet vuln "PkgName") (.str "Unknown package")
            let ver := pyOr (jGet vuln "InstalledVersion") (.str "Unknown version")
            let title := pyOr (pyOr (jGet vuln "Title") (jGet vuln "VulnerabilityID"))
              (.str "Vulnerability")
            some [("tool", .str "Trivy"),
                  ("severity", pyOr (jGet vuln "Severity") (.str "UNKNOWN")),
                  ("file", target),
                  ("description", .str (pyStr pkg ++ " " ++ pyStr ver ++ " - " ++ pyStr title)),
                  ("fix", pyOr (jGet vuln "FixedVersion") (.str "No fix available"))]
          else none)
      else [])
  else []

/-- Source `parse_trivy`. -/
def parse_trivy (report : FileState) : List Finding :=
  parse_trivy_doc (load_json report (.obj []))

/-- Body of source `parse_semgrep` after `load_json`. -/
def parse_semgrep_doc (data : Json) : List Finding :=
  if isDict data && jHasKey data "results" then
    (jIter (pyOr (jGetD data "results" (.arr [])) (.arr []))).filterMap (fun res =>
      if isDict res then
        let extra := pyOr (jGet res "extra") (.obj [])
        let start := pyOr (jGet res "start") (.obj [])
        some [("tool", .str "Semgrep"),
              ("severity", pyOr (jGet extra "severity") (.str "UNKNOWN")),
              ("file", pyOr (jGet res "path") (.str "Unknown")),
              ("line", jGet start "line"),
              ("description", pyOr (jGet extra "message") (.str "Semgrep finding")),
              ("rule_id", pyOr (jGet res "check_id") (.str "Unknown"))]
      else none)
  else []

/-- Source `parse_semgrep`. -/
def parse_semgrep (report : FileState) : List Finding :=
  parse_semgrep_doc (load_json report (.obj []))

/-- Body of source `parse_gitleaks` after `load_json`. -/
def parse_gitleaks_doc (data : Json) : List Finding :=
  match data with
  | .arr leaks =>
    leaks.filterMap (fun leak =>
      if isDict leak then
        let rule_id := pyOr (jGet leak "RuleID") (.str "Unknown")
        some [("tool", .str "Gitleaks"),
              ("severity", .str "CRITICAL"),
              ("file", pyOr (jGet leak "File") (.str "Unknown")),
              ("line", jGet leak "StartLine"),
              ("description", .str ("Secret detected: " ++ pyStr rule_id)),
              ("snippet", .str "REDACTED")]
      else none)
  | _ => []

/-- Source `parse_gitleaks`. -/
def parse_gitleaks (report : FileState) : List Finding :=
  parse_gitleaks_doc (load_json report (.arr []))

/-- Alias table of source `parse_zap` mapping `str(riskcode)` to a
severity. -/
def risk_map : List (String × String) :=
  [("3", "HIGH"), ("2", "MEDIUM"), ("1", "LOW"), ("0", "INFO")]

/-- The finding source `parse_zap` builds for one alert dict. -/
def zapAlertFinding (alert : Json) : Finding :=
  let riskcode := jGet alert "riskcode"
  let severity :=
    match risk_map.find? (fun p => p.1 == pyStr riskcode) with
    | some p => p.2
    | none => "UNKNOWN"
  let instances := jGet alert "instances"
  let target_url : Json :=
    match instances with
    | .arr (first :: _) =>
      if isDict first then pyOr (jGet first "uri") (.str "URL Target")
      else .str "URL Target"
    | _ => .str "URL Target"
  [("tool", .str "ZAP"),
   ("severity", .str severity),
   ("file", target_url),
   ("description", pyOr (jGet alert "alert") (.str "ZAP alert")),
   ("solution", jGet alert "solution")]

/-- Body of source `parse_zap` after `load_json`. -/
def parse_zap_doc (data : Json) : List Finding :=
  if isDict data then
    match jGet data "site" with
    | .arr sites =>
      sites.flatMap (fun site =>
        if isDict site then
          (jIter (pyOr (jGetD site "alerts" (.arr [])) (.arr []))).filterMap (fun alert =>
            if isDict alert then some (zapAlertFinding alert) else none)
        else [])
    | _ => []
  else []

/-- Source `parse_zap`. -/
def parse_zap (report : FileState) : List Finding :=
  parse_zap_doc (load_json report (.obj []))

/-- Rank table of source `_severity_key`. -/
def severity_rank : List (String × Nat) :=
  [("CRITICAL", 0), ("HIGH", 1), ("MEDIUM", 2), ("LOW", 3), ("INFO", 4), ("UNKNOWN", 5)]

/-- Source `_severity_key`: rank of the normalized severity, 5 when the
normalized string is not in the rank table. -/
def _severity_key (item : Finding) : Nat :=
  let sev_str := normalizeSevJson (dictGetD item "severity" (.str "UNKNOWN"))
  match severity_rank.find? (fun p => p.1 == sev_str) with
  | some p => p.2
  | none => 5

/-- The report directory `main` reads: the state of each of the four fixed
report files. -/
structure ReportDir where
  trivy : FileState
  semgrep : FileState
  gitleaks : FileState
  zap : FileState

/-- The concatenation `main` builds before normalizing: dependency,
static, secret, dynamic parser output in that order. -/
def all_findings_raw (d : ReportDir) : List Finding :=
  parse_trivy d.trivy ++ parse_semgrep d.semgrep ++ parse_gitleaks d.gitleaks ++ parse_zap d.zap

/-- The in-place severity rewrite of `main`:
`f["severity"] = _normalize_severity(f.get("severity", "UNKNOWN"))`. -/
def normalizeFinding (f : Finding) : Finding :=
  dictSet f "severity" (.str (normalizeSevJson (dictGetD f "severity" (.str "UNKNOWN"))))

/-- Comparison `main` sorts by: `_severity_key` ascending. -/
def findingLE (a b : Finding) : Prop := _severity_key a ≤ _severity_key b

instance : DecidableRel findingLE := fun a b => Nat.decLe (_severity_key a) (_severity_key b)

/-- Python's `list.sort(key=_severity_key)`: the stable ascending sort by
key, realized by insertion sort (extensionally the unique permutation that
is sorted by the key and preserves the relative order of equal keys, which
is proved below). -/
def sortFindings (l : List Finding) : List Finding := l.insertionSort findingLE

/-- The findings list of `main` after the normalization pass and the
stable sort. -/
def mainFindings (d : ReportDir) : List Finding :=
  sortFindings ((all_findings_raw d).map normalizeFinding)

/-- `tools_run` as `main` computes it from file presence. -/
def tools_run (d : ReportDir) : List String :=
  (if fileExists d.trivy then ["Trivy"] else []) ++
  (if fileExists d.semgrep then ["Semgrep"] else []) ++
  (if fileExists d.gitleaks then ["Gitleaks"] else []) ++
  (if fileExists d.zap then ["ZAP"] else [])

/-- The aggregated report document `main` writes. -/
structure Report where
  total_issues : Nat
  tools_run : List String
  findings : List Finding

/-- Source `main`, reduced to its computational content: the report
document it writes and the exit code it returns (`1` when
`print_human_summary` reports failure, `0` otherwise). -/
def main (d : ReportDir) : Report × Nat :=
  let findings := mainFindings d
  let report : Report :=
    { total_issues := findings.length, tools_run := tools_run d, findings := findings }
  let failed := print_human_summary findings
  (report, if failed then 1 else 0)

/-! Full-fidelity model of the loader's error behaviour.  Source
`load_json` catches only `(json.JSONDecodeError, OSError, IOError)`
(line 166): a present file whose bytes are not valid UTF-8 makes
`json.load` raise `UnicodeDecodeError` (a `ValueError` that is none of
those), which propagates out of `load_json` — contradicting its own
docstring ("Returns `default` if the file doesn't exist or can't be
parsed") — through the parser and crashes `main`.  The model below
represents that escaping exception with `Except.error`. -/

/-- Exception that escapes `load_json`: the `UnicodeDecodeError` raised
by `json.load` on a file that is not valid UTF-8, absent from the caught
tuple. -/
inductive PyError where
  | unicodeDecodeError

/-- State of one tool's report file on disk, full version: like
`FileState` but with the present-yet-undecodable file (bytes not valid
UTF-8) on which `load_json` raises instead of returning. -/
inductive RawFileState where
  | absent
  | unreadable
  | undecodable
  | ok (doc : Json)

/-- Source `load_json` on the full state space: the default for an absent
file and for a caught read/parse failure, the escaping
`UnicodeDecodeError` for an undecodable file, the document otherwise. -/
def load_json_raw (report : RawFileState) (default : Json) : Except PyError Json :=
  match report with
  | .absent => .ok default
  | .unreadable => .ok default
  | .undecodable => .error .unicodeDecodeError
  | .ok doc => .ok doc

/-- Python `os.path.exists` on the full file-state space: an undecodable
file is present on disk. -/
def fileExistsRaw : RawFileState → Bool
  | .absent => false
  | .unreadable => true
  | .undecodable => true
  | .ok _ => true

/-- Source `parse_trivy` on the full state space: an exception escaping
`load_json` propagates. -/
def parse_trivy_raw (report : RawFileState) : Except PyError (List Finding) :=
  (load_json_raw report (.obj [])).map parse_trivy_doc

/-- Source `parse_semgrep` on the full state space. -/
def parse_semgrep_raw (report : RawFileState) : Except PyError (List Finding) :=
  (load_json_raw report (.obj [])).map parse_semgrep_doc

/-- Source `parse_gitleaks` on the full state space. -/
def parse_gitleaks_raw (report : RawFileState) : Except PyError (List Finding) :=
  (load_json_raw report (.arr [])).map parse_gitleaks_doc

/-- Source `parse_zap` on the full state space. -/
def parse_zap_raw (report : RawFileState) : Except PyError (List Finding) :=
  (load_json_raw report (.obj [])).map parse_zap_doc

/-- The report directory of `main`, full version. -/
structure RawReportDir where
  trivy : RawFileState
  semgrep : RawFileState
  gitleaks : RawFileState
  zap : RawFileState

/-- `tools_run` on the full state space. -/
def tools_run_raw (d : RawReportDir) : List String :=
  (if fileExistsRaw d.trivy then ["Trivy"] else []) ++
  (if fileExistsRaw d.semgrep then ["Semgrep"] else []) ++
  (if fileExistsRaw d.gitleaks then ["Gitleaks"] else []) ++
  (if fileExistsRaw d.zap then ["ZAP"] else [])

/-- Source `main` on the full state space: the parsers run in order
(dependency, static, secret, dynamic) and an exception escaping any of
them aborts the run before any later step. -/
def main_raw (d : RawReportDir) : Except PyError (Report × Nat) := do
  let t ← parse_trivy_raw d.trivy
  let s ← parse_semgrep_raw d.semgrep
  let g ← parse_gitleaks_raw d.gitleaks
  let z ← parse_zap_raw d.zap
  let findings := sortFindings ((t ++ s ++ g ++ z).map normalizeFinding)
  let report : Report :=
    { total_issues := findings.length, tools_run := tools_run_raw d, findings := findings }
  let failed := print_human_summary findings
  return (report, if failed then 1 else 0)

/-- Inclusion of the non-crashing file states into the full state
space. -/
def FileState.toRaw : FileState → RawFileState
  | .absent => .absent
  | .unreadable => .unreadable
  | .ok doc => .ok doc

/-- Inclusion of the non-crashing report directories into the full state
space. -/
def ReportDir.toRaw (d : ReportDir) : RawReportDir :=
  ⟨d.trivy.toRaw, d.semgrep.toRaw, d.gitleaks.toRaw, d.zap.toRaw⟩

/-! Character and string lemmas: the ASCII case mapping is idempotent and
maps no character into or out of the whitespace set, hence
`strip`/`upper` commute and the composite token-canonicalization is
idempotent. -/

theorem char_toNat_ofNat (n : Nat) (h : n < 55296) : (Char.ofNat n).toNat = n := by
  simp [Char.ofNat, Nat.isValidChar, h, Char.ofNatAux, Char.toNat, UInt32.toNat]

theorem toUpper_eq (c : Char) :
    c.toUpper = if c.toNat ≥ 97 ∧ c.toNat ≤ 122 then Char.ofNat (c.toNat - 32) else c := rfl

theorem toUpper_idem (c : Char) : c.toUpper.toUpper = c.toUpper := by
  rw [toUpper_eq c]
  by_cases h : c.toNat ≥ 97 ∧ c.toNat ≤ 122
  · have ht : (Char.ofNat (c.toNat - 32)).toNat = c.toNat - 32 :=
      char_toNat_ofNat _ (by omega)
    rw [if_pos h, toUpper_eq, if_neg (by rw [ht]; omega)]
  · rw [if_neg h, toUpper_eq, if_neg h]

theorem pyWS_toUpper (c : Char) : pyWS c.toUpper = pyWS c := by
  rw [toUpper_eq c]
  by_cases h : c.toNat ≥ 97 ∧ c.toNat ≤ 122
  · have ht : (Char.ofNat (c.toNat - 32)).toNat = c.toNat - 32 :=
      char_toNat_ofNat _ (by omega)
    rw [if_pos h, Bool.eq_iff_iff]
    simp only [pyWS, Bool.or_eq_true, beq_iff_eq, ht]
    omega
  · rw [if_neg h]

theorem dropWhile_idem {α : Type} (p : α → Bool) (l : List α) :
    (l.dropWhile p).dropWhile p = l.dropWhile p := by
  induction l with
  | nil => rfl
  | cons a l ih =>
    rw [List.dropWhile_cons]
    by_cases h : p a
    · rw [if_pos h]; exact ih
    · rw [if_neg h, List.dropWhile_cons, if_neg h]

theorem dropWhile_head_false {α : Type} (p : α → Bool) (l : List α) (x : α) (xs : List α)
    (h : l.dropWhile p = x :: xs) : p x = false := by
  induction l with
  | nil => cases h
  | cons a l ih =>
    rw [List.dropWhile_cons] at h
    by_cases ha : p a
    · rw [if_pos ha] at h; exact ih h
    · rw [if_neg ha] at h
      cases h
      exact Bool.of_not_eq_true ha

theorem stripList_prefix (l : List Char) : stripList l <+: l.dropWhile pyWS := by
  have h2 := List.reverse_prefix.mpr
    (List.dropWhile_suffix (l := (l.dropWhile pyWS).reverse) pyWS)
  rwa [List.reverse_reverse] at h2

theorem stripList_dropWhile (l : List Char) :
    (stripList l).dropWhile pyWS = stripList l := by
  cases hs : stripList l with
  | nil => rfl
  | cons x xs =>
    obtain ⟨t, ht⟩ := hs ▸ stripList_prefix l
    have hx : pyWS x = false :=
      dropWhile_head_false pyWS l x (xs ++ t) (by rw [← ht]; rfl)
    rw [List.dropWhile_cons, hx]
    simp

theorem stripList_idem (l : List Char) : stripList (stripList l) = stripList l := by
  have h1 : (stripList l).dropWhile pyWS = stripList l := stripList_dropWhile l
  show ((((stripList l).dropWhile pyWS).reverse).dropWhile pyWS).reverse = stripList l
  rw [h1]
  have h2 : (stripList l).reverse = (l.dropWhile pyWS).reverse.dropWhile pyWS := by
    show ((((l.dropWhile pyWS).reverse).dropWhile pyWS).reverse).reverse = _
    rw [List.reverse_reverse]
  rw [h2, dropWhile_idem, ← h2, List.reverse_reverse]

theorem dropWhile_map_toUpper (l : List Char) :
    (l.map Char.toUpper).dropWhile pyWS = (l.dropWhile pyWS).map Char.toUpper := by
  induction l with
  | nil => rfl
  | cons a l ih =>
    rw [List.map_cons, List.dropWhile_cons, List.dropWhile_cons, pyWS_toUpper]
    by_cases h : pyWS a
    · rw [if_pos h, if_pos h]; exact ih
    · rw [if_neg h, if_neg h, List.map_cons]

theorem stripList_map_toUpper (l : List Char) :
    stripList (l.map Char.toUpper) = (stripList l).map Char.toUpper := by
  unfold stripList
  rw [dropWhile_map_toUpper, ← List.map_reverse, dropWhile_map_toUpper, ← List.map_reverse]

theorem pyStrip_pyUpper (s : String) : pyStrip (pyUpper s) = pyUpper (pyStrip s) := by
  unfold pyStrip pyUpper
  exact congrArg String.mk (stripList_map_toUpper s.data)

theorem pyUpper_pyUpper (s : String) : pyUpper (pyUpper s) = pyUpper s := by
  unfold pyUpper
  refine congrArg String.mk ?h
  rw [List.map_map]
  exact List.map_congr_left fun c _ => toUpper_idem c

theorem pyStrip_pyStrip (s : String) : pyStrip (pyStrip s) = pyStrip s := by
  unfold pyStrip
  exact congrArg String.mk (stripList_idem s.data)

theorem canonToken_idem (s : String) : canonToken (canonToken s) = canonToken s := by
  unfold canonToken
  rw [pyStrip_pyUpper, pyUpper_pyUpper, pyStrip_pyStrip]

theorem normAlias_expand (s : String) :
    normAlias s =
      if s = "CRIT" then "CRITICAL"
      else if s = "ERROR" then "HIGH"
      else if s = "WARN" ∨ s = "WARNING" then "MEDIUM"
      else if s = "INFORMATION" ∨ s = "INFORMATIONAL" then "INFO"
      else if s = "" then "UNKNOWN"
      else s := rfl

theorem canonToken_normAlias (s : String) (h : canonToken s = s) :
    canonToken (normAlias s) = normAlias s := by
  rw [normAlias_expand]
  split_ifs <;> first
    | decide
    | exact h

theorem normAlias_idem (s : String) : normAlias (normAlias s) = normAlias s := by
  conv_lhs => rw [normAlias_expand s]
  conv_rhs => rw [normAlias_expand s]
  split_ifs with h1 h2 h3 h4 h5 <;> first
    | decide
    | (rw [normAlias_expand]
       simp only [if_neg h1, if_neg h2, if_neg h3, if_neg h4, if_neg h5])

theorem normalize_idem (x : String) :
    _normalize_severity (_normalize_severity x) = _normalize_severity x := by
  show normAlias (canonToken (normAlias (canonToken x))) = normAlias (canonToken x)
  rw [canonToken_normAlias _ (canonToken_idem x)]
  exact normAlias_idem _

/-! Dictionary lemmas: the in-place update `f[k] = v` changes exactly the
value at `k`. -/

theorem dictGetD_dictSet_self (f : Finding) (k : String) (v : Json) (d : Json) :
    dictGetD (dictSet f k v) k d = v := by
  induction f with
  | nil => simp [dictSet, dictGetD]
  | cons p rest ih =>
    obtain ⟨k0, v0⟩ := p
    by_cases h : k0 = k
    · simp [dictSet, if_pos h, dictGetD]
    · rw [dictSet, if_neg h]
      rw [dictGetD, List.find?]
      have hb : (k0 == k) = false := by simp [h]
      rw [hb]
      exact ih

theorem dictGetD_dictSet_ne (f : Finding) (k k' : String) (v : Json) (d : Json)
    (h : k' ≠ k) : dictGetD (dictSet f k v) k' d = dictGetD f k' d := by
  have hkk : (k == k') = false := beq_eq_false_iff_ne.mpr (Ne.symm h)
  induction f with
  | nil => simp [dictSet, dictGetD, List.find?, hkk]
  | cons p rest ih =>
    obtain ⟨k0, v0⟩ := p
    by_cases h0 : k0 = k
    · rw [dictSet, if_pos h0]
      have hb0 : (k0 == k') = false := by rw [h0]; exact hkk
      rw [dictGetD, dictGetD, List.find?, List.find?, hkk, hb0]
    · rw [dictSet, if_neg h0]
      by_cases hk : k0 = k'
      · have hb : (k0 == k') = true := beq_iff_eq.mpr hk
        rw [dictGetD, dictGetD, List.find?, List.find?, hb]
      · have hb : (k0 == k') = false := beq_eq_false_iff_ne.mpr hk
        rw [dictGetD, dictGetD, List.find?, List.find?, hb]
        exact ih

/-- The severity value after the normalization pass of `main`. -/
theorem normalizeFinding_severity (f : Finding) :
    dictGetD (normalizeFinding f) "severity" (.str "UNKNOWN") =
      Json.str (normalizeSevJson (dictGetD f "severity" (.str "UNKNOWN"))) :=
  dictGetD_dictSet_self f "severity" _ _

/-- Normalized severities are fixed points of the normalizer, so the
severity key of a finding is unchanged by the normalization pass. -/
theorem severity_key_normalizeFinding (f : Finding) :
    _severity_key (normalizeFinding f) = _severity_key f := by
  rw [_severity_key, _severity_key, normalizeFinding_severity]
  have h : normalizeSevJson
      (Json.str (normalizeSevJson (dictGetD f "severity" (.str "UNKNOWN")))) =
      normalizeSevJson (dictGetD f "severity" (.str "UNKNOWN")) := by
    rw [normalizeSevJson, pyStr]
    exact normalize_idem _
  rw [h]

/-! Summary-computation lemmas. -/

theorem bucketOf_mem_severities (f : Finding) : bucketOf f ∈ severities := by
  rw [bucketOf]
  split_ifs with h
  · exact h
  · decide

theorem counts_foldl (fs : List Finding) (acc : (String → Nat) × (String → String → Nat))
    (k : String) :
    (fs.foldl summaryStep acc).1 k = acc.1 k + fs.countP (fun f => bucketOf f == k) := by
  induction fs generalizing acc with
  | nil => simp
  | cons f fs ih =>
    rw [List.foldl_cons, ih, List.countP_cons]
    have hstep : (summaryStep acc f).1 k = if k = bucketOf f then acc.1 k + 1 else acc.1 k := rfl
    rw [hstep]
    by_cases h : k = bucketOf f
    · have hb : (bucketOf f == k) = true := beq_iff_eq.mpr h.symm
      simp only [if_pos h, hb, if_true]
      omega
    · have hb : (bucketOf f == k) = false := beq_eq_false_iff_ne.mpr (Ne.symm h)
      simp only [if_neg h, hb, Bool.false_eq_true, if_false]
      omega

theorem counts_eq_countP (fs : List Finding) (k : String) :
    (_compute_human_summary fs).counts k = fs.countP (fun f => bucketOf f == k) := by
  have h := counts_foldl fs (fun _ => 0, fun _ _ => 0) k
  simpa [_compute_human_summary] using h

theorem sum_six_bump (g : String → Nat) (k : String) (hk : k ∈ severities) :
    (severities.map (fun s => if s = k then g s + 1 else g s)).sum =
      (severities.map g).sum + 1 := by
  fin_cases hk <;> simp [severities] <;> omega

theorem counts_sum_foldl (fs : List Finding) (acc : (String → Nat) × (String → String → Nat)) :
    (severities.map (fs.foldl summaryStep acc).1).sum =
      (severities.map acc.1).sum + fs.length := by
  induction fs generalizing acc with
  | nil => simp
  | cons f fs ih =>
    rw [List.foldl_cons, ih]
    have hstep : (summaryStep acc f).1 = fun s => if s = bucketOf f then acc.1 s + 1 else acc.1 s := rfl
    rw [hstep, sum_six_bump acc.1 (bucketOf f) (bucketOf_mem_severities f), List.length_cons]
    omega

/-! Sorting lemmas: `sortFindings` is a permutation, is sorted by
`_severity_key`, and preserves the relative order of findings of equal
key (stability, stated through `filter`). -/

instance : IsTotal Finding findingLE :=
  ⟨fun a b => Nat.le_total (_severity_key a) (_severity_key b)⟩

instance : IsTrans Finding findingLE := ⟨fun _ _ _ => Nat.le_trans⟩

theorem filter_orderedInsert_pos (k : Nat) (a : Finding) (ha : _severity_key a = k)
    (L : List Finding) :
    (List.orderedInsert findingLE a L).filter (fun f => _severity_key f == k) =
      a :: L.filter (fun f => _severity_key f == k) := by
  have hpa : (_severity_key a == k) = true := beq_iff_eq.mpr ha
  induction L with
  | nil => simp [List.orderedInsert, List.filter, hpa]
  | cons b bs ih =>
    rw [List.orderedInsert]
    by_cases h : findingLE a b
    · rw [if_pos h]
      simp [List.filter_cons, hpa]
    · rw [if_neg h]
      have hkb : (_severity_key b == k) = false := by
        have hlt : _severity_key b < _severity_key a := Nat.lt_of_not_le h
        refine beq_eq_false_iff_ne.mpr ?x
        omega
      simp [List.filter_cons, hkb, ih]

theorem filter_orderedInsert_neg (k : Nat) (a : Finding) (ha : _severity_key a ≠ k)
    (L : List Finding) :
    (List.orderedInsert findingLE a L).filter (fun f => _severity_key f == k) =
      L.filter (fun f => _severity_key f == k) := by
  have hpa : (_severity_key a == k) = false := beq_eq_false_iff_ne.mpr ha
  induction L with
  | nil => simp [List.orderedInsert, List.filter, hpa]
  | cons b bs ih =>
    rw [List.orderedInsert]
    by_cases h : findingLE a b
    · rw [if_pos h]
      simp [List.filter_cons, hpa]
    · rw [if_neg h]
      simp [List.filter_cons, ih]

theorem filter_insertionSort (l : List Finding) (k : Nat) :
    (List.insertionSort findingLE l).filter (fun f => _severity_key f == k) =
      l.filter (fun f => _severity_key f == k) := by
  induction l with
  | nil => rfl
  | cons a l ih =>
    rw [List.insertionSort]
    by_cases ha : _severity_key a = k
    · rw [filter_orderedInsert_pos k a ha, ih, List.filter_cons]
      have hb : (_severity_key a == k) = true := beq_iff_eq.mpr ha
      simp [hb]
    · rw [filter_orderedInsert_neg k a ha, ih, List.filter_cons]
      have hb : (_severity_key a == k) = false := beq_eq_false_iff_ne.mpr ha
      simp [hb]

theorem filter_sortFindings (l : List Finding) (k : Nat) :
    (sortFindings l).filter (fun f => _severity_key f == k) =
      l.filter (fun f => _severity_key f == k) :=
  filter_insertionSort l k

theorem sortFindings_perm (l : List Finding) : (sortFindings l).Perm l :=
  List.perm_insertionSort findingLE l

theorem sortFindings_sorted (l : List Finding) : (sortFindings l).Pairwise findingLE :=
  List.sorted_insertionSort findingLE l

/-! Agreement of the full loader model with the non-crashing restriction
on the states the restriction covers. -/

theorem load_json_raw_toRaw (fs : FileState) (default : Json) :
    load_json_raw fs.toRaw default = .ok (load_json fs default) := by
  cases fs <;> rfl

theorem fileExistsRaw_toRaw (fs : FileState) : fileExistsRaw fs.toRaw = fileExists fs := by
  cases fs <;> rfl

theorem main_raw_toRaw (d : ReportDir) : main_raw d.toRaw = .ok (main d) := by
  obtain ⟨t, s, g, z⟩ := d
  cases t <;> cases s <;> cases g <;> cases z <;> rfl

/-! Specification-side formulation of the normalizer (for the refinement
claim): the alias table as the specification words it, applied by lookup
after coercion, trimming and uppercasing. -/

/-- Alias table as the specification lists it. -/
def aliasTableSpec : List (String × String) :=
  [("CRIT", "CRITICAL"), ("ERROR", "HIGH"), ("WARN", "MEDIUM"), ("WARNING", "MEDIUM"),
   ("INFORMATION", "INFO"), ("INFORMATIONAL", "INFO"), ("", "UNKNOWN")]

/-- The normalizer as the specification describes it: coerce the value to
a string (UNKNOWN if the coercion fails), trim and uppercase it, look the
token up in the alias table, and return any token not in the table
unchanged. -/
def normalizeSpec : PyVal → String
  | .exotic => "UNKNOWN"
  | .json j =>
    let s := pyUpper (pyStrip (pyStr j))
    (aliasTableSpec.lookup s).getD s

theorem normAlias_eq_lookup (s : String) :
    normAlias s = (aliasTableSpec.lookup s).getD s := by
  rw [normAlias_expand]
  split_ifs with h1 h2 h3 h4 h5
  · subst h1; decide
  · subst h2; decide
  · rcases h3 with h | h <;> (subst h; decide)
  · rcases h4 with h | h <;> (subst h; decide)
  · subst h5; decide
  · push_neg at h3 h4
    have b1 : (s == "CRIT") = false := beq_eq_false_iff_ne.mpr h1
    have b2 : (s == "ERROR") = false := beq_eq_false_iff_ne.mpr h2
    have b3 : (s == "WARN") = false := beq_eq_false_iff_ne.mpr h3.1
    have b4 : (s == "WARNING") = false := beq_eq_false_iff_ne.mpr h3.2
    have b5 : (s == "INFORMATION") = false := beq_eq_false_iff_ne.mpr h4.1
    have b6 : (s == "INFORMATIONAL") = false := beq_eq_false_iff_ne.mpr h4.2
    have b7 : (s == "") = false := beq_eq_false_iff_ne.mpr h5
    simp [aliasTableSpec, List.lookup, b1, b2, b3, b4, b5, b6, b7]

theorem risk_lookup_eq (r : String) :
    (match risk_map.find? (fun p => p.1 == r) with
      | some p => p.2
      | none => "UNKNOWN") =
      if r = "3" then "HIGH" else if r = "2" then "MEDIUM"
      else if r = "1" then "LOW" else if r = "0" then "INFO" else "UNKNOWN" := by
  split_ifs with h3 h2 h1 h0
  · subst h3; decide
  · subst h2; decide
  · subst h1; decide
  · subst h0; decide
  · have b3 : ("3" == r) = false := beq_eq_false_iff_ne.mpr (Ne.symm h3)
    have b2 : ("2" == r) = false := beq_eq_false_iff_ne.mpr (Ne.symm h2)
    have b1 : ("1" == r) = false := beq_eq_false_iff_ne.mpr (Ne.symm h1)
    have b0 : ("0" == r) = false := beq_eq_false_iff_ne.mpr (Ne.symm h0)
    simp [risk_map, List.find?, b3, b2, b1, b0]

/-! Concrete documents and findings used as witnesses and
counterexamples. -/

/-- A secret-scanner document with one leak. -/
def gitleaksWitnessDoc : Json :=
  .arr [.obj [("RuleID", .str "aws-key"), ("File", .str "config.env"), ("StartLine", .num 3)]]

/-- The finding `parse_gitleaks` produces for `gitleaksWitnessDoc`. -/
def gitleaksWitnessFinding : Finding :=
  [("tool", .str "Gitleaks"), ("severity", .str "CRITICAL"), ("file", .str "config.env"),
   ("line", .num 3), ("description", .str "Secret detected: aws-key"),
   ("snippet", .str "REDACTED")]

/-- A dynamic-scanner document whose single alert carries the unmapped
riskcode "9". -/
def zapDoc9 : Json :=
  .obj [("site", .arr [.obj [("alerts",
    .arr [.obj [("riskcode", .str "9"), ("alert", .str "Odd alert")]])]])]

/-- A dynamic-scanner document whose single alert has no riskcode
field. -/
def zapDocNoRisk : Json :=
  .obj [("site", .arr [.obj [("alerts", .arr [.obj [("alert", .str "No risk")]])]])]

/-- A dependency-scanner document with one vulnerability whose raw
severity "MODERATE" is neither canonical nor an alias. -/
def moderateTrivyDoc : Json :=
  .obj [("Results", .arr [.obj [("Target", .str "requirements.txt"),
    ("Vulnerabilities", .arr [.obj [("PkgName", .str "leftpad"),
      ("Severity", .str "MODERATE")]])]])]

/-- A report directory holding only `moderateTrivyDoc`. -/
def moderateDir : ReportDir := ⟨.ok moderateTrivyDoc, .absent, .absent, .absent⟩

/-- The single finding `main` emits for `moderateDir`, severity already
normalized. -/
def moderateFinding : Finding :=
  [("tool", .str "Trivy"), ("severity", .str "MODERATE"), ("file", .str "requirements.txt"),
   ("description", .str "leftpad Unknown version - Vulnerability"),
   ("fix", .str "No fix available")]

/-! The claims. -/

/-- C1: when the fail-on-critical gate is enabled the verdict is FAILED
iff the CRITICAL count is non-zero (the CRITICAL count being the number of
findings with normalized severity CRITICAL, so no other severity's count
enters); with the gate disabled the verdict is never FAILED; and `main`
returns exit code 1 exactly when the verdict is FAILED and 0 otherwise. -/
theorem C1_fail_on_critical_gate :
    (∀ findings : List Finding,
      print_human_summary findings true =
        ((_compute_human_summary findings).counts "CRITICAL" != 0)) ∧
    (∀ findings : List Finding,
      (_compute_human_summary findings).counts "CRITICAL" =
        findings.countP (fun f =>
          normalizeSevJson (dictGetD f "severity" (.str "UNKNOWN")) == "CRITICAL")) ∧
    (∀ findings : List Finding, print_human_summary findings false = false) ∧
    (∀ d : ReportDir,
      (main d).2 = if print_human_summary (mainFindings d) true then 1 else 0) ∧
    (∀ d : ReportDir,
      ((main d).2 = 1 ↔ print_human_summary (mainFindings d) true = true) ∧
      ((main d).2 = 0 ↔ print_human_summary (mainFindings d) true = false)) := by
  refine ⟨fun _ => rfl, fun findings => ?hcnt, fun _ => rfl, fun _ => rfl, fun d => ?hexit⟩
  · rw [counts_eq_countP]
    refine List.countP_congr ?hp
    intro f _
    rw [bucketOf]
    by_cases h : normalizeSevJson (dictGetD f "severity" (.str "UNKNOWN")) ∈ severities
    · rw [if_pos h]
    · rw [if_neg h]
      have h1 : ("UNKNOWN" == "CRITICAL") = false := by decide
      have h2 : (normalizeSevJson (dictGetD f "severity" (.str "UNKNOWN")) == "CRITICAL")
          = false := by
        refine beq_eq_false_iff_ne.mpr ?x
        intro e
        exact h (by rw [e]; decide)
      rw [h1, h2]
  · have hmain : (main d).2 = if print_human_summary (mainFindings d) true then 1 else 0 := rfl
    cases hb : print_human_summary (mainFindings d) true
    · rw [hmain, hb]
      simp
    · rw [hmain, hb]
      simp

/-- C2: the normalizer coerces any input to a string (UNKNOWN if the
coercion fails), strips and uppercases, maps CRIT to CRITICAL, ERROR to
HIGH, WARN and WARNING to MEDIUM, INFORMATION and INFORMATIONAL to INFO
and the empty string to UNKNOWN, and returns every other string —
canonical tokens like HIGH and unrecognized ones like MODERATE alike —
unchanged; unrecognized tokens collapse to UNKNOWN only at the
ranking/counting boundary. -/
theorem C2_normalizer_matches_spec :
    (∀ v : PyVal, normalize_severity_any v = normalizeSpec v) ∧
    _normalize_severity "CRIT" = "CRITICAL" ∧
    _normalize_severity "ERROR" = "HIGH" ∧
    _normalize_severity "WARN" = "MEDIUM" ∧
    _normalize_severity "WARNING" = "MEDIUM" ∧
    _normalize_severity "INFORMATION" = "INFO" ∧
    _normalize_severity "INFORMATIONAL" = "INFO" ∧
    _normalize_severity "" = "UNKNOWN" ∧
    _normalize_severity "HIGH" = "HIGH" ∧
    _normalize_severity "MODERATE" = "MODERATE" ∧
    _severity_key [("severity", Json.str "MODERATE")] = 5 ∧
    (_compute_human_summary [[("severity", Json.str "MODERATE")]]).counts "UNKNOWN" = 1 := by
  refine ⟨fun v => ?heq, by decide, by decide, by decide, by decide, by decide, by decide,
    by decide, by decide, by decide, by decide, by decide⟩
  cases v with
  | exotic => rfl
  | json j => exact normAlias_eq_lookup (canonToken (pyStr j))

/-- C5: the severity normalizer is idempotent on strings. -/
theorem C5_normalize_idempotent (x : String) :
    _normalize_severity (_normalize_severity x) = _normalize_severity x :=
  normalize_idem x

/-- C6: every finding the secret-scanner parser produces has severity
CRITICAL, description "Secret detected: <RuleID>" and a snippet equal to
the literal string "REDACTED"; no raw secret content reaches the snippet
field. -/
theorem C6_gitleaks_always_critical_redacted (report : FileState) (f : Finding)
    (hf : f ∈ parse_gitleaks report) :
    dictGetD f "severity" Json.null = Json.str "CRITICAL" ∧
    dictGetD f "snippet" Json.null = Json.str "REDACTED" ∧
    ∃ rid : String,
      dictGetD f "description" Json.null = Json.str ("Secret detected: " ++ rid) := by
  rw [parse_gitleaks] at hf
  generalize load_json report (.arr []) = data at hf
  cases data with
  | arr leaks =>
    rw [parse_gitleaks_doc] at hf
    obtain ⟨leak, hmem, hsome⟩ := List.mem_filterMap.mp hf
    by_cases hd : isDict leak
    · rw [if_pos hd] at hsome
      cases hsome
      exact ⟨rfl, rfl, pyStr (pyOr (jGet leak "RuleID") (.str "Unknown")), rfl⟩
    · rw [if_neg hd] at hsome
      cases hsome
  | null => simp [parse_gitleaks_doc] at hf
  | bool b => simp [parse_gitleaks_doc] at hf
  | num n => simp [parse_gitleaks_doc] at hf
  | str s => simp [parse_gitleaks_doc] at hf
  | obj fields => simp [parse_gitleaks_doc] at hf

/-- Witness for C6 at a concrete one-leak document. -/
theorem C6_gitleaks_witness :
    dictGetD gitleaksWitnessFinding "severity" Json.null = Json.str "CRITICAL" ∧
    dictGetD gitleaksWitnessFinding "snippet" Json.null = Json.str "REDACTED" ∧
    ∃ rid : String,
      dictGetD gitleaksWitnessFinding "description" Json.null =
        Json.str ("Secret detected: " ++ rid) :=
  C6_gitleaks_always_critical_redacted (.ok gitleaksWitnessDoc) gitleaksWitnessFinding
    (by rw [show parse_gitleaks (FileState.ok gitleaksWitnessDoc) = [gitleaksWitnessFinding]
          from rfl]
        exact List.Mem.head _)

/-- C7 (code bug): the caught error class is indeed non-fatal — an absent
file and a present one failing with a caught exception (invalid JSON in
valid UTF-8, I/O error) make the loader return the parser's default,
every parser then yields zero findings, each parser's contribution
depends only on its own file, a run with only such a malformed
trivy.json finishes with total_issues = 0 and exit code 0, and on all
those states the full model agrees with the restricted one.  But a
present report file whose bytes are not valid UTF-8 raises
`UnicodeDecodeError` inside `json.load`, which the `except` clause
`(json.JSONDecodeError, OSError, IOError)` does not catch: the exception
escapes `load_json` — against its own docstring — propagates through the
parser, and the run crashes instead of completing with total_issues = 0
as the claim (and the spec's error taxonomy) requires. -/
theorem C7_undecodable_file_is_fatal :
    (∀ default : Json,
      load_json .absent default = default ∧ load_json .unreadable default = default) ∧
    parse_trivy .absent = [] ∧ parse_trivy .unreadable = [] ∧
    parse_semgrep .absent = [] ∧ parse_semgrep .unreadable = [] ∧
    parse_gitleaks .absent = [] ∧ parse_gitleaks .unreadable = [] ∧
    parse_zap .absent = [] ∧ parse_zap .unreadable = [] ∧
    (∀ d : ReportDir, all_findings_raw d =
      parse_trivy d.trivy ++ parse_semgrep d.semgrep ++
        parse_gitleaks d.gitleaks ++ parse_zap d.zap) ∧
    (main ⟨.unreadable, .absent, .absent, .absent⟩).1.total_issues = 0 ∧
    (main ⟨.unreadable, .absent, .absent, .absent⟩).2 = 0 ∧
    (∀ (fs : FileState) (default : Json),
      load_json_raw fs.toRaw default = .ok (load_json fs default)) ∧
    (∀ d : ReportDir, main_raw d.toRaw = .ok (main d)) ∧
    parse_trivy_raw .undecodable = .error .unicodeDecodeError ∧
    main_raw ⟨.undecodable, .absent, .absent, .absent⟩ = .error .unicodeDecodeError :=
  ⟨fun _ => ⟨rfl, rfl⟩, rfl, rfl, rfl, rfl, rfl, rfl, rfl, rfl, fun _ => rfl, rfl, rfl,
   load_json_raw_toRaw, main_raw_toRaw, rfl, rfl⟩

/-- C8: the dynamic-scanner parser maps stringified riskcode "3" to HIGH,
"2" to MEDIUM, "1" to LOW, "0" to INFO, and anything else — for example
"9" or an absent riskcode — to UNKNOWN, for every alert. -/
theorem C8_zap_riskcode_map :
    (∀ alert : Json,
      dictGetD (zapAlertFinding alert) "severity" Json.null =
        Json.str (
          if pyStr (jGet alert "riskcode") = "3" then "HIGH"
          else if pyStr (jGet alert "riskcode") = "2" then "MEDIUM"
          else if pyStr (jGet alert "riskcode") = "1" then "LOW"
          else if pyStr (jGet alert "riskcode") = "0" then "INFO"
          else "UNKNOWN")) ∧
    ((parse_zap (.ok zapDoc9)).map (fun f => dictGetD f "severity" Json.null) =
      [Json.str "UNKNOWN"]) ∧
    ((parse_zap (.ok zapDocNoRisk)).map (fun f => dictGetD f "severity" Json.null) =
      [Json.str "UNKNOWN"]) := by
  refine ⟨fun alert => ?ha, rfl, rfl⟩
  have h : dictGetD (zapAlertFinding alert) "severity" Json.null =
      Json.str (match risk_map.find? (fun p => p.1 == pyStr (jGet alert "riskcode")) with
        | some p => p.2
        | none => "UNKNOWN") := rfl
  rw [h, risk_lookup_eq]

/-- C3 (counterexample): it is not true that after the normalization pass
every severity field is one of the six canonical values — a dependency
report with raw severity "MODERATE" survives normalization verbatim. -/
theorem C3_counterexample :
    ¬ (∀ f ∈ mainFindings moderateDir,
        ∃ s : String,
          dictGetD f "severity" (.str "UNKNOWN") = Json.str s ∧ s ∈ severities) := by
  intro h
  have hm : mainFindings moderateDir = [moderateFinding] := rfl
  obtain ⟨s, hs, hsm⟩ := h moderateFinding (by rw [hm]; exact List.Mem.head _)
  have hs0 : dictGetD moderateFinding "severity" (.str "UNKNOWN") =
      Json.str "MODERATE" := rfl
  rw [hs0] at hs
  injection hs with hs2
  subst hs2
  simp [severities] at hsm

/-- C3 (amended): after the normalization pass every finding's severity
field is a string that the normalizer maps to itself; it is canonical for
recognized raw tokens but a free-form token such as MODERATE passes
through. -/
theorem C3_amended_severity_normalized (d : ReportDir) (f : Finding)
    (hf : f ∈ mainFindings d) :
    ∃ s : String, dictGetD f "severity" (.str "UNKNOWN") = Json.str s ∧
      _normalize_severity s = s := by
  rw [mainFindings, sortFindings, List.mem_insertionSort] at hf
  obtain ⟨g, hg, rfl⟩ := List.mem_map.mp hf
  exact ⟨normalizeSevJson (dictGetD g "severity" (.str "UNKNOWN")),
    normalizeFinding_severity g, normalize_idem _⟩

/-- Witness for the amended C3 at the MODERATE run. -/
theorem C3_amended_witness :
    ∃ s : String, dictGetD moderateFinding "severity" (.str "UNKNOWN") = Json.str s ∧
      _normalize_severity s = s :=
  C3_amended_severity_normalized moderateDir moderateFinding
    (by rw [show mainFindings moderateDir = [moderateFinding] from rfl]
        exact List.Mem.head _)

/-- C4: the rank table is CRITICAL 0, HIGH 1, MEDIUM 2, LOW 3, INFO 4,
UNKNOWN 5; the output of `main` is sorted by ascending rank (so all
CRITICAL findings precede all HIGH findings, and so on); normalization
does not change a finding's rank; and findings of equal rank keep the
relative order of the concatenated parser output. -/
theorem C4_sorted_by_rank_stable :
    (_severity_key [("severity", Json.str "CRITICAL")] = 0 ∧
     _severity_key [("severity", Json.str "HIGH")] = 1 ∧
     _severity_key [("severity", Json.str "MEDIUM")] = 2 ∧
     _severity_key [("severity", Json.str "LOW")] = 3 ∧
     _severity_key [("severity", Json.str "INFO")] = 4 ∧
     _severity_key [("severity", Json.str "UNKNOWN")] = 5) ∧
    (∀ d : ReportDir, (mainFindings d).Pairwise findingLE) ∧
    (∀ f : Finding, _severity_key (normalizeFinding f) = _severity_key f) ∧
    (∀ (d : ReportDir) (k : Nat),
      (mainFindings d).filter (fun f => _severity_key f == k) =
        ((all_findings_raw d).map normalizeFinding).filter
          (fun f => _severity_key f == k)) :=
  ⟨by decide, fun d => sortFindings_sorted ((all_findings_raw d).map normalizeFinding),
   severity_key_normalizeFinding, fun _ k => filter_sortFindings _ k⟩

/-- C9: the output findings list is a permutation of the concatenated
parser output in which each finding had exactly its severity field
rewritten by normalization; every other key's value is unchanged. -/
theorem C9_only_severity_rewritten :
    (∀ d : ReportDir,
      (mainFindings d).Perm ((all_findings_raw d).map normalizeFinding)) ∧
    (∀ f : Finding,
      dictGetD (normalizeFinding f) "severity" (.str "UNKNOWN") =
        Json.str (normalizeSevJson (dictGetD f "severity" (.str "UNKNOWN")))) ∧
    (∀ (f : Finding) (k : String) (d0 : Json), k ≠ "severity" →
      dictGetD (normalizeFinding f) k d0 = dictGetD f k d0) :=
  ⟨fun d => sortFindings_perm ((all_findings_raw d).map normalizeFinding),
   normalizeFinding_severity,
   fun f k d0 hk => dictGetD_dictSet_ne f "severity" k _ d0 hk⟩

/-- Witness for C9: the tool field of a finding is untouched by the
severity-normalization pass. -/
theorem C9_witness :
    dictGetD (normalizeFinding [("tool", Json.str "Trivy"), ("severity", Json.str "warn")])
        "tool" Json.null =
      dictGetD [("tool", Json.str "Trivy"), ("severity", Json.str "warn")] "tool" Json.null :=
  C9_only_severity_rewritten.2.2 _ "tool" Json.null (by decide)

/-- C10: the six per-severity counts of the summary computer sum exactly
to the length of the findings list (the returned total); every finding
falls in exactly one canonical bucket because non-canonical normalized
severities are collapsed to UNKNOWN before counting. -/
theorem C10_counts_sum_to_total (findings : List Finding) :
    (severities.map (_compute_human_summary findings).counts).sum =
        (_compute_human_summary findings).total ∧
    (_compute_human_summary findings).total = findings.length ∧
    ∀ f : Finding, bucketOf f ∈ severities := by
  refine ⟨?hsum, rfl, fun f => bucketOf_mem_severities f⟩
  show (severities.map (findings.foldl summaryStep (fun _ => 0, fun _ _ => 0)).1).sum =
    findings.length
  rw [counts_sum_foldl]
  simp [severities]

end SoloSec
